import Mathlib

/-!
# Verification of the libratom extraction pipeline specification

A shallow embedding, in Lean 4, of the parts of the `libratom` Python code
base that its natural-language specification makes claims about:

* `libratom/lib/utils.py`   — `decode`, `cleanup_message_body`
* `libratom/lib/pff.py`     — `PffArchive.get_message_body`,
                              `PffArchive.get_attachment_metadata`
* `libratom/lib/mbox.py`    — `MboxArchive.format_message`,
                              `MboxArchive.get_message_body`
* `libratom/lib/report.py`  — `get_file_info`, `scan_files`
* `libratom/lib/concurrency.py` — `get_messages`
* `libratom/lib/entities.py`    — `extract_entities` (result assembly,
                              batch commits, cancellation)
* `libratom/lib/database.py`    — `db_session` (commit-on-exit)
* `libratom/cli/subcommands.py` — `entities` (status code plumbing)

Python strings are embedded as `List Char`; Python `None`-able values as
`Option`; raised exceptions as `Except` values.  External collaborators
(the spaCy model, `striprtf.rtf_to_text`, BeautifulSoup's `get_text`,
`mimetypes.guess_type`, the pypff record-set lookup) are taken as explicit
function arguments, since their code is outside this repository.
-/

/-- Python `str`, embedded as a list of characters. -/
abbrev PyStr := List Char

/-- Python's notion of an ASCII whitespace character, as matched by both
`str.strip()` with no argument and the regex class `\s` on the inputs we
consider (space, tab, newline, carriage return, vertical tab, form feed). -/
def pyIsSpace (c : Char) : Bool :=
  c = ' ' || c = '\t' || c = '\n' || c = '\r' || c = '\x0b' || c = '\x0c'

/-- Python `str.strip()` with no argument: drop whitespace from both ends. -/
def pyStrip (s : PyStr) : PyStr :=
  ((s.dropWhile pyIsSpace).reverse.dropWhile pyIsSpace).reverse

/-- Python truthiness of an `Optional[str]`-valued expression:
`None` and the empty string are falsy. -/
def pyTruthy : Option PyStr → Bool
  | none => false
  | some s => !s.isEmpty

/-- Python `x or y` on `Optional[str]` operands: `x` if truthy, else `y`. -/
def pyOr (x y : Option PyStr) : Option PyStr :=
  if pyTruthy x then x else y

/-! ## Bytes decoding — `libratom/lib/utils.py`, `decode`

`decode` turns `bytes` input into `str` via
`str(content, encoding="utf-8", errors="replace")` and returns `str` input
unchanged.  We embed `AnyStr` as a sum of the two cases and model the
CPython UTF-8 codec with `errors="replace"`: each well-formed sequence
decodes to its scalar value, and each malformed sequence (an invalid start
byte, or a truncated/invalid continuation) yields a single U+FFFD
replacement character for the maximal consumed prefix. -/

/-- Python `AnyStr`: either an already-decoded `str` or raw `bytes`. -/
inductive AnyStr where
  | ofStr (s : PyStr)
  | ofBytes (bs : List Nat)
  deriving DecidableEq, Repr

/-- Is `b` a UTF-8 continuation byte (`0x80 ≤ b < 0xC0`)? -/
def isCont (b : Nat) : Bool := 0x80 ≤ b && b < 0xC0

/-- One step of UTF-8 decoding with replacement: returns the decoded
character and the number of bytes consumed (at least one). -/
def utf8Step : Nat → List Nat → Char × Nat
  | b, rest =>
    if b < 0x80 then
      (Char.ofNat b, 1)
    else if b < 0xC2 then ('�', 1)  -- stray continuation or overlong lead
    else if b < 0xE0 then
      match rest with
      | b1 :: _ =>
        if isCont b1 then
          (Char.ofNat ((b - 0xC0) * 0x40 + (b1 - 0x80)), 2)
        else ('�', 1)
      | [] => ('�', 1)
    else if b < 0xF0 then
      match rest with
      | b1 :: b2 :: _ =>
        if isCont b1 && isCont b2 && (b ≠ 0xE0 || b1 ≥ 0xA0) && (b ≠ 0xED || b1 < 0xA0) then
          (Char.ofNat ((b - 0xE0) * 0x1000 + (b1 - 0x80) * 0x40 + (b2 - 0x80)), 3)
        else if isCont b1 && (b ≠ 0xE0 || b1 ≥ 0xA0) && (b ≠ 0xED || b1 < 0xA0) then
          ('�', 2)
        else ('�', 1)
      | [b1] =>
        if isCont b1 && (b ≠ 0xE0 || b1 ≥ 0xA0) && (b ≠ 0xED || b1 < 0xA0) then
          ('�', 2)
        else ('�', 1)
      | [] => ('�', 1)
    else if b < 0xF5 then
      match rest with
      | b1 :: b2 :: b3 :: _ =>
        if isCont b1 && isCont b2 && isCont b3 && (b ≠ 0xF0 || b1 ≥ 0x90) && (b ≠ 0xF4 || b1 < 0x90) then
          (Char.ofNat ((b - 0xF0) * 0x40000 + (b1 - 0x80) * 0x1000 + (b2 - 0x80) * 0x40 + (b3 - 0x80)), 4)
        else if isCont b1 && isCont b2 && (b ≠ 0xF0 || b1 ≥ 0x90) && (b ≠ 0xF4 || b1 < 0x90) then
          ('�', 3)
        else if isCont b1 && (b ≠ 0xF0 || b1 ≥ 0x90) && (b ≠ 0xF4 || b1 < 0x90) then
          ('�', 2)
        else ('�', 1)
      | [b1, b2] =>
        if isCont b1 && isCont b2 && (b ≠ 0xF0 || b1 ≥ 0x90) && (b ≠ 0xF4 || b1 < 0x90) then
          ('�', 3)
        else if isCont b1 && (b ≠ 0xF0 || b1 ≥ 0x90) && (b ≠ 0xF4 || b1 < 0x90) then
          ('�', 2)
        else ('�', 1)
      | [b1] =>
        if isCont b1 && (b ≠ 0xF0 || b1 ≥ 0x90) && (b ≠ 0xF4 || b1 < 0x90) then
          ('�', 2)
        else ('�', 1)
      | [] => ('�', 1)
    else ('�', 1)

/-- Fuel-indexed UTF-8 decoding loop (the fuel only bounds recursion depth;
with fuel at least the input length it never runs out). -/
def utf8DecodeFuel : Nat → List Nat → PyStr
  | 0, _ => []
  | _ + 1, [] => []
  | fuel + 1, b :: rest =>
    let (c, n) := utf8Step b rest
    c :: utf8DecodeFuel fuel (List.drop (n - 1) rest)

/-- UTF-8 decoding with replacement, modelling CPython's
`bytes.decode("utf-8", errors="replace")`. -/
def utf8DecodeReplace (bs : List Nat) : PyStr :=
  utf8DecodeFuel bs.length bs

/-- `libratom/lib/utils.py`, `decode`: bytes are decoded as UTF-8 with
replacement; strings pass through unchanged. -/
def decode : AnyStr → PyStr
  | .ofBytes bs => utf8DecodeReplace bs
  | .ofStr s => s

/-! ## Body sanitization — `libratom/lib/utils.py`, `cleanup_message_body`

The three regex substitutions are embedded as deterministic scanners over
`List Char`, with the exact matching discipline of Python `re.sub`
(leftmost match, scanning resumes after each removed match, greedy /
non-greedy quantifiers resolved as the patterns force them):

* `stripB64`  — `re.sub(r"^[>\s]*[A-Za-z0-9+/]{76,}\n?", "", body, re.MULTILINE)`
* `stripUuencode` — `re.sub(r"begin [0-7]{3}.*?end", "", body, re.DOTALL)`
* `stripOmni` — `re.sub(r"<(OMNI|omni)([^>]*?)>.*?</\1\2>(\s)*", "", body, re.DOTALL)`

The scanners carry a fuel argument bounding recursion depth; fuel equal to
the input length always suffices because every step consumes at least one
character. -/

/-- A base64-alphabet character: `[A-Za-z0-9+/]`. -/
def isB64Char (c : Char) : Bool :=
  ('A' ≤ c && c ≤ 'Z') || ('a' ≤ c && c ≤ 'z') || ('0' ≤ c && c ≤ '9') || c = '+' || c = '/'

/-- The character class `[>\s]` from the base64-stripping pattern. -/
def isGtOrSpace (c : Char) : Bool := c = '>' || pyIsSpace c

/-- Smallest index `k` such that `pat` is a prefix of `l.drop k`
(resolves the non-greedy `.*?pat` sub-patterns). -/
def findPrefixIdx (pat : PyStr) : PyStr → Option Nat
  | [] => if pat.isEmpty then some 0 else none
  | c :: rest =>
    if pat.isPrefixOf (c :: rest) then some 0
    else (findPrefixIdx pat rest).map (· + 1)

/-- Length of the match of `[>\s]*[A-Za-z0-9+/]{76,}\n?` at the head of `l`
(to be attempted only at line starts), or `none`. The two character classes
are disjoint, so the greedy runs are forced. -/
def matchB64Len (l : PyStr) : Option Nat :=
  let p := (l.takeWhile isGtOrSpace).length
  let rest := l.drop p
  let b := (rest.takeWhile isB64Char).length
  if 76 ≤ b then
    some (p + b + (match rest.drop b with | '\n' :: _ => 1 | _ => 0))
  else none

/-- Is the scan position reached after consuming `n` characters of `l` a
`re.MULTILINE` line start (i.e. is the last consumed character a newline)? -/
def nextAtLineStart (l : PyStr) (n : Nat) : Bool :=
  match l.drop (n - 1) with
  | '\n' :: _ => true
  | _ => false

/-- Scanner for the base64-line substitution; `atLS` records whether the
current position is a line start, where alone the anchored pattern can
match. -/
def stripB64Fuel : Nat → Bool → PyStr → PyStr
  | 0, _, l => l
  | _ + 1, _, [] => []
  | fuel + 1, atLS, c :: rest =>
    if atLS then
      match matchB64Len (c :: rest) with
      | some n => stripB64Fuel fuel (nextAtLineStart (c :: rest) n) (List.drop n (c :: rest))
      | none => c :: stripB64Fuel fuel (c = '\n') rest
    else c :: stripB64Fuel fuel (c = '\n') rest

/-- `re.sub(r"^[>\s]*[A-Za-z0-9+/]{76,}\n?", "", body, flags=re.MULTILINE)`. -/
def stripB64 (l : PyStr) : PyStr := stripB64Fuel l.length true l

/-- An octal digit: `[0-7]`. -/
def isOctDigit (c : Char) : Bool := '0' ≤ c && c ≤ '7'

/-- Length of the non-greedy match of `begin [0-7]{3}.*?end` at the head of
`l`, or `none`. -/
def matchUULen (l : PyStr) : Option Nat :=
  match l with
  | 'b' :: 'e' :: 'g' :: 'i' :: 'n' :: ' ' :: d1 :: d2 :: d3 :: rest =>
    if isOctDigit d1 && isOctDigit d2 && isOctDigit d3 then
      (findPrefixIdx ['e', 'n', 'd'] rest).map (fun k => 12 + k)
    else none
  | _ => none

/-- Scanner for the uuencode substitution. -/
def stripUuencodeFuel : Nat → PyStr → PyStr
  | 0, l => l
  | _ + 1, [] => []
  | fuel + 1, c :: rest =>
    match matchUULen (c :: rest) with
    | some n => stripUuencodeFuel fuel (List.drop n (c :: rest))
    | none => c :: stripUuencodeFuel fuel rest

/-- `re.sub(r"begin [0-7]{3}.*?end", "", body, flags=re.DOTALL)`. -/
def stripUuencode (l : PyStr) : PyStr := stripUuencodeFuel l.length l

/-- Length of the match of `<(OMNI|omni)([^>]*?)>.*?</\1\2>(\s)*` at the
head of `l`, or `none`.  The lazy group `([^>]*?)` followed by a literal
`>` forces the group to stop at the first `>`; the alternation branches are
mutually exclusive on any given input. -/
def matchOmniLen (l : PyStr) : Option Nat :=
  match l with
  | '<' :: rest =>
    let tag : Option PyStr :=
      if List.isPrefixOf ['O', 'M', 'N', 'I'] rest then some ['O', 'M', 'N', 'I']
      else if List.isPrefixOf ['o', 'm', 'n', 'i'] rest then some ['o', 'm', 'n', 'i']
      else none
    match tag with
    | none => none
    | some t =>
      let afterTag := rest.drop 4
      let g2 := afterTag.takeWhile (fun c => c ≠ '>')
      match afterTag.drop g2.length with
      | '>' :: body =>
        let close := '<' :: '/' :: (t ++ g2 ++ ['>'])
        match findPrefixIdx close body with
        | some j =>
          let upto := 1 + 4 + g2.length + 1 + j + close.length
          some (upto + ((l.drop upto).takeWhile pyIsSpace).length)
        | none => none
      | _ => none
  | _ => none

/-- Scanner for the calendar/notes markup substitution. -/
def stripOmniFuel : Nat → PyStr → PyStr
  | 0, l => l
  | _ + 1, [] => []
  | fuel + 1, c :: rest =>
    match matchOmniLen (c :: rest) with
    | some n => stripOmniFuel fuel (List.drop n (c :: rest))
    | none => c :: stripOmniFuel fuel rest

/-- `re.sub(r"<(OMNI|omni)([^>]*?)>.*?</\1\2>(\s)*", "", body, flags=re.DOTALL)`. -/
def stripOmni (l : PyStr) : PyStr := stripOmniFuel l.length l

/-- `libratom/lib/constants.py`, `BodyType`. -/
inductive BodyType where
  | PLAIN
  | RTF
  | HTML
  deriving DecidableEq, Repr

section Cleanup

/-! External collaborators of `cleanup_message_body`:
`striprtf.striprtf.rtf_to_text` and
`BeautifulSoup(body, "html.parser").get_text()`, outside this repository. -/

variable (rtf_to_text html_get_text : PyStr → PyStr)

/-- `libratom/lib/utils.py`, `cleanup_message_body`, translated line by
line: decode, strip RTF formatting or HTML markup according to the body
type (callers can pass `None`, hence `Option BodyType`), then each
oversized-body substitution guarded by its own size check, then a final
`str.strip()`. -/
def cleanup_message_body (body : AnyStr) (body_type : Option BodyType)
    (size_threshold : Nat := 0) : PyStr :=
  let body := decode body
  let body :=
    if body_type = some BodyType.RTF then rtf_to_text body
    else if body_type = some BodyType.HTML then html_get_text body
    else body
  let body := if size_threshold < body.length then stripB64 body else body
  let body := if size_threshold < body.length then stripUuencode body else body
  let body := if size_threshold < body.length then stripOmni body else body
  pyStrip body

/-- The markup-stripping stage of the sanitization pipeline as the spec
words it: RTF bodies are converted to plain text, HTML bodies have their
markup stripped, anything else passes through. -/
def markupStage (body_type : Option BodyType) (s : PyStr) : PyStr :=
  if body_type = some BodyType.RTF then rtf_to_text s
  else if body_type = some BodyType.HTML then html_get_text s
  else s

/-- A sanitization stage applied only when the text exceeds the size
threshold, as the spec words it. -/
def sizeGuardedStage (size_threshold : Nat) (stage : PyStr → PyStr) (s : PyStr) : PyStr :=
  if size_threshold < s.length then stage s else s

/-- The sanitization pipeline exactly as §4.4 of the spec words it:
decode, then markup stripping by body type, then the three size-guarded
substitutions in the order base64 → uuencode → calendar markup, then a
final trim. -/
def sanitizationPipelineSpec (body : AnyStr) (body_type : Option BodyType)
    (size_threshold : Nat) : PyStr :=
  pyStrip
    (sizeGuardedStage size_threshold stripOmni
      (sizeGuardedStage size_threshold stripUuencode
        (sizeGuardedStage size_threshold stripB64
          (markupStage rtf_to_text html_get_text body_type (decode body)))))

end Cleanup

/-! ## Archive adapters — `libratom/lib/pff.py` and `libratom/lib/mbox.py` -/

/-- Decidable equality for embedded exception outcomes. -/
instance {ε α : Type} [DecidableEq ε] [DecidableEq α] : DecidableEq (Except ε α) := by
  intro a b
  cases a <;> cases b
  case error.error e e' => exact decidable_of_iff (e = e') (by simp)
  case ok.ok v v' => exact decidable_of_iff (v = v') (by simp)
  all_goals exact isFalse (by simp)

/-- `libratom/lib/base.py`, dataclass `AttachmentMetadata`. -/
structure AttachmentMetadata where
  name : PyStr
  mime_type : Option PyStr := none
  size : Option Nat := none
  content : Option (List Nat) := none
  deriving DecidableEq, Repr

/-- The attributes of a `pypff.attachment` that
`PffArchive.get_attachment_metadata` reads.  `record_mime` is the outcome
of the `PffArchive._get_mime_type` record-set lookup for this attachment
(`.error` when that lookup raises, `.ok` with the container's stored MIME
type or `None`); the lookup itself walks native pypff record sets and is
taken as given here. -/
structure PffAttachment where
  name : Option PyStr
  size : Nat
  record_mime : Except Unit (Option PyStr)
  deriving DecidableEq, Repr

/-- The attributes of a `pypff.message` that the embedded `PffArchive`
methods read. -/
structure PffMessage where
  plain_text_body : Option PyStr := none
  rtf_body : Option PyStr := none
  html_body : Option PyStr := none
  attachments : List PffAttachment := []
  deriving DecidableEq, Repr

namespace PffArchive

/-- `libratom/lib/pff.py`, `PffArchive.get_message_body`: try the truthy
plain text body first, then the RTF body, then the HTML body, else an
empty string with no body type.  (Python truthiness: a `None` or empty
body is skipped.) -/
def get_message_body (message : PffMessage) : PyStr × Option BodyType :=
  if pyTruthy message.plain_text_body then (message.plain_text_body.getD [], some BodyType.PLAIN)
  else if pyTruthy message.rtf_body then (message.rtf_body.getD [], some BodyType.RTF)
  else if pyTruthy message.html_body then (message.html_body.getD [], some BodyType.HTML)
  else ([], none)

/-- `libratom/lib/pff.py`, `PffArchive.get_attachment_metadata`, translated
loop body: attachments with a falsy (`None` or empty) name are skipped;
for the rest, the MIME type is `self._get_mime_type(attachment) or
guess_mime_type(attachment.name)`, with any exception from the lookup
caught and replaced by `None`.  `guess_mime_type` wraps the standard
library's `mimetypes.guess_type` and is passed in as a function. -/
def get_attachment_metadata (guess_mime_type : PyStr → Option PyStr) :
    List PffAttachment → List AttachmentMetadata
  | [] => []
  | attachment :: rest =>
    if pyTruthy attachment.name then
      let mime_type : Option PyStr :=
        match attachment.record_mime with
        | .ok stored => pyOr stored (guess_mime_type (attachment.name.getD []))
        | .error _ => none
      { name := attachment.name.getD [], mime_type := mime_type, size := some attachment.size }
        :: get_attachment_metadata guess_mime_type rest
    else get_attachment_metadata guess_mime_type rest

/-- The claim's reading of the per-attachment MIME resolution: the stored
record-set value if the lookup succeeds with a truthy result, else the
filename-extension guess, and `None` if the lookup raised. -/
def resolvedMimeType (guess_mime_type : PyStr → Option PyStr)
    (attachment : PffAttachment) : Option PyStr :=
  match attachment.record_mime with
  | .ok stored => pyOr stored (guess_mime_type (attachment.name.getD []))
  | .error _ => none

end PffArchive

/-- One part of an mbox message's MIME tree, in `message.walk()` order.
`as_string` is the part's RFC822 serialization (after the
`content-transfer-encoding` normalization the source applies before
serializing); serialization is done by the standard library `email`
package and is carried here as data. -/
structure MboxPart where
  content_type : String
  content_disposition : Option String := none
  filename : Option PyStr := none
  payload_length : Nat := 0
  as_string : PyStr := []
  deriving DecidableEq, Repr

/-- An mbox message, presented as its `walk()` sequence of parts. -/
structure MboxMessage where
  parts : List MboxPart
  deriving DecidableEq, Repr

namespace MboxArchive

/-- `libratom/lib/mbox.py`, `MboxArchive.format_message`: the serialization
of the first part whose content type is `text/plain` or `message/rfc822`,
or the empty string when there is none.  `with_headers` is accepted and
ignored, exactly as in the source (its body is a placeholder `pass`). -/
def format_message (message : MboxMessage) (_with_headers : Bool := true) : PyStr :=
  match message.parts.find? (fun part =>
      part.content_type = "text/plain" || part.content_type = "message/rfc822") with
  | some part => part.as_string
  | none => []

/-- `libratom/lib/mbox.py`, `MboxArchive.get_message_body`: always the
`format_message` text paired with the `PLAIN` body type. -/
def get_message_body (message : MboxMessage) : PyStr × Option BodyType :=
  (format_message message, some BodyType.PLAIN)

end MboxArchive

/-- The precedence contract §4.1 states for `get_message_body`, as a
predicate on the three candidate bodies and the returned pair: the truthy
plain text body tagged `PLAIN` if present, else the RTF body tagged `RTF`,
else the HTML body tagged `HTML`, else an empty body with no type. -/
def bodyPrecedenceSpec (plain rtf html : Option PyStr)
    (result : PyStr × Option BodyType) : Prop :=
  if pyTruthy plain then result = (plain.getD [], some BodyType.PLAIN)
  else if pyTruthy rtf then result = (rtf.getD [], some BodyType.RTF)
  else if pyTruthy html then result = (html.getD [], some BodyType.HTML)
  else result = ([], none)

/-! ## File scan stage — `libratom/lib/report.py`, `get_file_info` / `scan_files`

A file submitted to the scan pool is described by the outcomes of its two
effectful steps: `fs_result` models the `os.stat` + block-wise digest
computation (size, MD5 hex digest, SHA-256 hex digest, or the exception the
outer `try` catches), and `msg_count_result` models
`open_mail_archive(path).message_count` (or the exception the inner `try`
catches). -/

structure ScanFileSpec where
  path : String
  name : String
  fs_result : Except String (Nat × String × String)
  msg_count_result : Except String Nat
  deriving DecidableEq, Repr

/-- The `res` dict built by `get_file_info`, which is also the column set
of a `FileReport` row (`libratom/models/file_report.py`) since `scan_files`
constructs `FileReport(**values)`. -/
structure FileReport where
  path : String
  name : String
  size : Option Nat := none
  md5 : Option String := none
  sha256 : Option String := none
  msg_count : Option Nat := none
  error : Option String := none
  deriving DecidableEq, Repr

/-- `libratom/lib/report.py`, `get_file_info`: on a size/digest exception
the partial `res` is returned together with the exception text (second
component); on a message-count exception the exception text goes into
`res["error"]` and the job-level error is `None`; otherwise both error
slots are `None`. -/
def get_file_info (f : ScanFileSpec) : FileReport × Option String :=
  let res : FileReport := { path := f.path, name := f.name }
  match f.fs_result with
  | .error exc => (res, some exc)
  | .ok (size, md5, sha256) =>
    let res := { res with size := some size, md5 := some md5, sha256 := some sha256 }
    match f.msg_count_result with
    | .ok n => ({ res with msg_count := some n }, none)
    | .error exc => ({ res with error := some exc }, none)

/-- `libratom/lib/report.py`, `scan_files`: one `get_file_info` job per
file (`pool.imap` preserves input order); a result whose job-level error is
`None` is added to the session as a `FileReport` row, otherwise it is only
logged.  `interrupt_after = some k` models a `KeyboardInterrupt` raised
after `k` results were consumed: the pool is terminated and the function
returns status 1; otherwise it returns status 0. -/
def scan_files (files : List ScanFileSpec) (interrupt_after : Option Nat := none) :
    List FileReport × Nat :=
  let processed := match interrupt_after with
    | some k => files.take k
    | none => files
  let rows := processed.filterMap (fun f =>
    match get_file_info f with
    | (values, none) => some values
    | (_, some _) => none)
  (rows, match interrupt_after with | some _ => 1 | none => 0)

/-! ## File-report linkage — `libratom/cli/subcommands.py`, `entities`, and
`libratom/lib/entities.py`, `extract_entities` -/

/-- `libratom/cli/subcommands.py`, `entities`, the good-files query:
`session.query(FileReport).filter(FileReport.error.is_(None))`, keeping
each row's path. -/
def goodFilePaths (table : List FileReport) : List String :=
  (table.filter (fun r => r.error = none)).map (fun r => r.path)

/-- `libratom/lib/entities.py`, `extract_entities`, the linkage lookup:
`session.query(FileReport).filter_by(path=filepath).one()` inside
`try/except`.  `.one()` succeeds only when exactly one row matches; on
zero or several matches it raises and the handler leaves the link `None`. -/
def linkFileReport (table : List FileReport) (filepath : String) : Option FileReport :=
  match table.filter (fun r => r.path = filepath) with
  | [r] => some r
  | _ => none

/-- A `Message` row restricted to the columns the linkage invariant is
about: its archive identifier, and the `FileReport` row it references (or
`None` when the lookup failed). -/
structure MessageRow where
  pff_identifier : Option Nat
  file_report : Option FileReport
  deriving DecidableEq, Repr

/-- The linkage slice of the `ratom entities` job: scan the files, query
the error-free paths, and produce for each message of each good file a
`Message` row linked through `linkFileReport` — the composition of
`scan_files`, the `entities` subcommand's good-files query, `get_messages`
(which draws `filepath` from the good-files list) and the linkage block of
`extract_entities`.  `messages_of` gives the identifiers of the messages
each archive yields. -/
def entitiesLinkage (files : List ScanFileSpec) (messages_of : String → List Nat) :
    List MessageRow :=
  let table := (scan_files files none).1
  (goodFilePaths table).flatMap (fun path =>
    (messages_of path).map (fun ident =>
      { pff_identifier := some ident, file_report := linkFileReport table path }))

/-! ## Job status plumbing — `libratom/cli/subcommands.py`, `entities` -/

/-- `libratom/cli/subcommands.py`, `entities`, the status logic: an
interrupted scan (`status == 1`) is returned as-is; a falsy
`load_spacy_model` result returns 1; otherwise the `extract_entities`
status is returned. -/
def entitiesCommandStatus (scan_status : Nat) (model_load_ok : Bool)
    (extract_status : Nat) : Nat :=
  if scan_status = 1 then scan_status
  else if !model_load_ok then 1
  else extract_status

/-! ## Message stream generator — `libratom/lib/concurrency.py`, `get_messages`

Each message of an archive is described by the outcomes of the adapter
calls the generator makes on it; each file by its `open_mail_archive`
outcome.  Dates are embedded as opaque naturals. -/

/-- `libratom/lib/constants.py`: default progress-reporting interval. -/
def RATOM_MSG_PROGRESS_STEP : Nat := 10

/-- `libratom/lib/constants.py`: default entity commit batch size. -/
def RATOM_DB_COMMIT_BATCH_SIZE : Nat := 3000

structure GenMessage where
  identifier : Option Nat
  attachments_result : Except Unit (List AttachmentMetadata)
  date_result : Except Unit Nat
  body_result : Except Unit (PyStr × Option BodyType)
  headers : Option PyStr := none
  deriving DecidableEq, Repr

structure GenFile where
  path : String
  open_result : Except Unit (List GenMessage)
  deriving DecidableEq, Repr

/-- The work-item dict `res` yielded by `get_messages` (the caller-supplied
`**kwargs` constants are omitted: they are the same for every item). -/
structure WorkItem where
  filepath : String
  message_id : Option Nat
  attachments : List AttachmentMetadata
  date : Option Nat
  body : Option (PyStr × Option BodyType)
  headers : Option PyStr
  deriving DecidableEq, Repr

/-- The per-message body of `get_messages`: building the work item.
`None` means the message is skipped (the outer per-message `except`): the
attachment-metadata call raised, or — when `with_content` — the body
extraction raised.  A date-extraction failure is caught by its own inner
`except` and only nulls the date. -/
def processGenMessage (filepath : String) (with_content with_headers : Bool)
    (m : GenMessage) : Option WorkItem :=
  match m.attachments_result with
  | .error _ => none
  | .ok attachments =>
    let date : Option Nat := match m.date_result with
      | .ok d => some d
      | .error _ => none
    if with_content then
      match m.body_result with
      | .error _ => none
      | .ok body =>
        some { filepath := filepath, message_id := m.identifier,
               attachments := attachments, date := date, body := some body,
               headers := if with_headers then m.headers else none }
    else
      some { filepath := filepath, message_id := m.identifier,
             attachments := attachments, date := date, body := none,
             headers := if with_headers then m.headers else none }

/-- The inner message loop of `get_messages`: processes the messages of one
file, threading the global message counter `n`.  Whether the work item is
yielded or the message is skipped, the `finally` block increments the
counter and fires the progress callback with `step` whenever the counter
is a multiple of `step`.  Returns (yielded items, progress calls, final
counter). -/
def msgLoop (step : Nat) (filepath : String) (with_content with_headers : Bool) :
    Nat → List GenMessage → List WorkItem × List Nat × Nat
  | n, [] => ([], [], n)
  | n, m :: rest =>
    let yielded := (processGenMessage filepath with_content with_headers m).toList
    let calls : List Nat := if (n + 1) % step = 0 then [step] else []
    let (ys, ps, nFinal) := msgLoop step filepath with_content with_headers (n + 1) rest
    (yielded ++ ys, calls ++ ps, nFinal)

/-- The outer file loop of `get_messages`: a file whose open raised is
skipped whole (the per-file `except`); its messages contribute nothing to
the counter. -/
def filesLoop (step : Nat) (with_content with_headers : Bool) :
    Nat → List GenFile → List WorkItem × List Nat × Nat
  | n, [] => ([], [], n)
  | n, f :: rest =>
    match f.open_result with
    | .error _ => filesLoop step with_content with_headers n rest
    | .ok msgs =>
      let (ys, ps, n1) := msgLoop step f.path with_content with_headers n msgs
      let (ys2, ps2, n2) := filesLoop step with_content with_headers n1 rest
      (ys ++ ys2, ps ++ ps2, n2)

/-- `libratom/lib/concurrency.py`, `get_messages`: the full generator run —
the file loop followed by the final `progress_callback(msg_count % STEP)`
call.  Returns the yielded work items and the arguments of all progress
calls, in order. -/
def get_messages (step : Nat) (files : List GenFile)
    (with_content : Bool := true) (with_headers : Bool := false) :
    List WorkItem × List Nat :=
  let (ys, ps, n) := filesLoop step with_content with_headers 0 files
  (ys, ps ++ [n % step])

/-- Total number of messages the generator iterates over: all messages of
the files that opened successfully (skipped messages included — the
`finally` counter counts them too). -/
def totalIterated (files : List GenFile) : Nat :=
  (files.map (fun f => match f.open_result with
    | .ok msgs => msgs.length
    | .error _ => 0)).sum

/-- No per-message failure in a generator run: in every file that opens,
every message's attachment-metadata call succeeds, and — when bodies are
requested — so does its body extraction.  (Executable, so that concrete
runs can discharge it by evaluation.) -/
def genNoFailure (with_content : Bool) (files : List GenFile) : Bool :=
  files.all (fun f => match f.open_result with
    | .error _ => true
    | .ok msgs => msgs.all (fun m =>
        m.attachments_result.isOk && (!with_content || m.body_result.isOk)))

/-! ## Result assembly and persistence — `libratom/lib/entities.py`,
`extract_entities`, with `libratom/lib/database.py`, `db_session`

The storage rows the assembly loop creates are tagged by kind and by the
message they came from; the entity texts/labels and message columns are
irrelevant to the claims and elided.  The header-field branch is inactive
(`include_message_contents=False`, the default) and the `try/except` around
the batch commit is modelled in its no-failure branch — the claims below
all hypothesize failure-free storage. -/

inductive DbRec where
  | message (msgId : Nat)
  | attachment (msgId : Nat) (idx : Nat)
  | entity (msgId : Nat) (idx : Nat)
  deriving DecidableEq, Repr

/-- Is this row an `Entity` row? -/
def DbRec.isEntity : DbRec → Bool
  | .entity _ _ => true
  | _ => false

/-- One worker output `(res, error)` from `process_message`, reduced to the
fields the assembly loop reads: the message id and filepath popped from
`res`, the number of extracted entities, the number of attachment-metadata
records, and the captured error (if any — the loop then skips the
message). -/
structure WorkerResult where
  message_id : Nat
  filepath : String
  error : Option String := none
  entities : Nat
  attachments : Nat
  deriving DecidableEq, Repr

/-- The SQLAlchemy session as the loop observes it: rows already made
durable by a commit, rows added but not yet committed (`session.new`), and
the per-commit log of rows each commit made durable (to count commits and
their sizes). -/
structure SessionState where
  committed : List DbRec := []
  pending : List DbRec := []
  commitLog : List (List DbRec) := []
  deriving DecidableEq, Repr

/-- `session.add` / `session.add_all`. -/
def SessionState.add (st : SessionState) (recs : List DbRec) : SessionState :=
  { st with pending := st.pending ++ recs }

/-- `session.commit()`: everything pending becomes durable. -/
def SessionState.commit (st : SessionState) : SessionState :=
  { committed := st.committed ++ st.pending, pending := [],
    commitLog := st.commitLog ++ [st.pending] }

/-- The loop state of `extract_entities`: the session plus the local
`new_entities` buffer. -/
structure ExtractState where
  session : SessionState := {}
  new_entities : List DbRec := []
  deriving DecidableEq, Repr

/-- The initial loop state: empty session, empty buffer. -/
def initExtractState : ExtractState := {}

/-- The body of the result-consumption loop of `extract_entities` for one
worker output: skip on error; otherwise add the `Message` row and its
`Attachment` rows to the session, append the `Entity` rows to the
`new_entities` buffer, and — once the buffer has reached the commit batch
size `K` — `session.add_all(new_entities)` followed by `session.commit()`. -/
def processWorkerResult (K : Nat) (st : ExtractState) (r : WorkerResult) : ExtractState :=
  if r.error.isSome then st
  else
    let msgRecs := DbRec.message r.message_id ::
      (List.range r.attachments).map (DbRec.attachment r.message_id)
    let session := st.session.add msgRecs
    let buffer := st.new_entities ++ (List.range r.entities).map (DbRec.entity r.message_id)
    if K ≤ buffer.length then
      { session := (session.add buffer).commit, new_entities := [] }
    else
      { session := session, new_entities := buffer }

/-- The outcome of an `extract_entities` call: the returned status, what
happened to the pool, and the final session/buffer state. -/
structure ExtractOutcome where
  status : Nat
  pool_terminated : Bool
  pool_joined : Bool
  final : ExtractState
  deriving DecidableEq, Repr

/-- `libratom/lib/entities.py`, `extract_entities`: consume the worker
results in completion order; on normal completion `session.add_all` the
remaining buffer (without committing) and return 0 — the `with Pool`
context exit terminates the pool.  `interrupt_after = some k` models a
`KeyboardInterrupt` raised after `k` results were consumed: the handler
terminates and joins the pool and returns 1, dropping the local
`new_entities` buffer. -/
def extract_entities (K : Nat) (results : List WorkerResult)
    (interrupt_after : Option Nat := none) : ExtractOutcome :=
  match interrupt_after with
  | some k =>
    let st := (results.take k).foldl (processWorkerResult K) initExtractState
    { status := 1, pool_terminated := true, pool_joined := true, final := st }
  | none =>
    let st := results.foldl (processWorkerResult K) initExtractState
    let st : ExtractState :=
      { session := st.session.add st.new_entities, new_entities := [] }
    { status := 0, pool_terminated := true, pool_joined := false, final := st }

/-- `libratom/cli/subcommands.py`, `entities`, persistence context:
`extract_entities` runs inside `with db_session(Session) as session`, and
`db_session` (`libratom/lib/database.py`) commits on exit whenever the
session holds new/dirty/deleted objects — also after the `KeyboardInterrupt`
path, which `extract_entities` swallows by returning 1. -/
def run_entities_persistence (K : Nat) (results : List WorkerResult)
    (interrupt_after : Option Nat := none) : ExtractOutcome :=
  let out := extract_entities K results interrupt_after
  let session :=
    if out.final.session.pending = [] then out.final.session
    else out.final.session.commit
  { out with final := { out.final with session := session } }

/-- The scenario of the batch-boundary and cancellation claims: worker
results that each carry one entity, no attachments, and no error. -/
def oneEntityResult (i : Nat) : WorkerResult :=
  { message_id := i, filepath := "archive.pst", entities := 1, attachments := 0 }

/-! ## Supporting lemmas -/

/-- A prefix of a list that `dropWhile` leaves unchanged is itself left
unchanged by `dropWhile`. -/
lemma dropWhile_eq_self_of_front {p : Char → Bool} {a b : PyStr}
    (hb : b <+: a) (ha : a.dropWhile p = a) : b.dropWhile p = b := by
  cases b with
  | nil => rfl
  | cons x xs =>
    obtain ⟨t, ht⟩ := hb
    subst ht
    have hx := (List.dropWhile_eq_self_iff).mp ha (by simp)
    simp only [List.get] at hx
    simp [List.dropWhile_cons, hx]

/-- `pyStrip` written with Mathlib's `rdropWhile`. -/
lemma pyStrip_eq_rdropWhile (s : PyStr) :
    pyStrip s = (s.dropWhile pyIsSpace).rdropWhile pyIsSpace := rfl

/-- Python's `str.strip()` is idempotent. -/
lemma pyStrip_idem (s : PyStr) : pyStrip (pyStrip s) = pyStrip s := by
  have key : (pyStrip s).dropWhile pyIsSpace = pyStrip s := by
    rw [pyStrip_eq_rdropWhile]
    exact dropWhile_eq_self_of_front ( List.rdropWhile_prefix _ _)
      (List.dropWhile_idempotent _ _)
  calc pyStrip (pyStrip s)
      = ((pyStrip s).dropWhile pyIsSpace).rdropWhile pyIsSpace := rfl
    _ = (pyStrip s).rdropWhile pyIsSpace := by rw [key]
    _ = ((s.dropWhile pyIsSpace).rdropWhile pyIsSpace).rdropWhile pyIsSpace := rfl
    _ = (s.dropWhile pyIsSpace).rdropWhile pyIsSpace := List.rdropWhile_idempotent _ _
    _ = pyStrip s := rfl

/-- `cleanup_message_body` always returns a stripped string, so a further
`str.strip()` of its result is a no-op. -/
lemma pyStrip_cleanup_message_body (rtf_to_text html_get_text : PyStr → PyStr)
    (body : AnyStr) (body_type : Option BodyType) (size_threshold : Nat) :
    pyStrip (cleanup_message_body rtf_to_text html_get_text body body_type size_threshold) =
      cleanup_message_body rtf_to_text html_get_text body body_type size_threshold := by
  unfold cleanup_message_body
  exact pyStrip_idem _

/-! ## Claim C8 — sanitization pipeline order -/

/-- C8: for every input body, `cleanup_message_body` first decodes bytes to
text, then strips RTF formatting if the body type is RTF or strips markup
if HTML, and then, each step only when the text exceeds the size
threshold, strips suspected base64 block runs, then uuencoded attachment
blocks, then embedded calendar/note markup blocks, in that order
(base64 → uuencode → calendar markup), ending with a trim: the function
equals the staged pipeline `sanitizationPipelineSpec` written from the
spec's wording. -/
theorem C8_sanitization_pipeline_order (rtf_to_text html_get_text : PyStr → PyStr)
    (body : AnyStr) (body_type : Option BodyType) (size_threshold : Nat) :
    cleanup_message_body rtf_to_text html_get_text body body_type size_threshold =
      sanitizationPipelineSpec rtf_to_text html_get_text body body_type size_threshold := rfl

/-! ## Claim C9 — sanitization idempotence -/

/-- A plain-typed body on which `cleanup_message_body` is *not* idempotent:
removing the non-greedy leftmost match `begin 000 x end` from
`bebegin 000 x endgin 000 y end` splices the surrounding characters into a
fresh `begin 000 y end` block, which only a second application removes. -/
def uuTrapBody : PyStr :=
  ['b', 'e', 'b', 'e', 'g', 'i', 'n', ' ', '0', '0', '0', ' ', 'x', ' ',
   'e', 'n', 'd', 'g', 'i', 'n', ' ', '0', '0', '0', ' ', 'y', ' ', 'e', 'n', 'd']

/-- C9 counterexample: applying `cleanup_message_body` twice (same plain
body type, same threshold 0, so the text exceeds the threshold) differs
from applying it once on `uuTrapBody` — the first pass returns
`begin 000 y end`, the second pass returns the empty string. -/
theorem C9_idempotence_counterexample :
    cleanup_message_body id id
        (.ofStr (cleanup_message_body id id (.ofStr uuTrapBody) (some BodyType.PLAIN) 0))
        (some BodyType.PLAIN) 0 ≠
      cleanup_message_body id id (.ofStr uuTrapBody) (some BodyType.PLAIN) 0 := by decide

/-- C9 as amended: `cleanup_message_body` is idempotent for plain-typed (or
untyped) bodies whenever the cleaned text does not exceed the size
threshold — in particular for every body at most the threshold in length —
because the second pass then skips all three substitutions and a second
`str.strip()` is a no-op; above the threshold idempotence can fail (see the
counterexample), and for RTF/HTML-typed bodies it depends on the external
`rtf_to_text` / HTML `get_text` collaborators. -/
theorem C9_idempotent_below_threshold (rtf_to_text html_get_text : PyStr → PyStr)
    (x : AnyStr) (body_type : Option BodyType) (size_threshold : Nat)
    (hbt : body_type = some BodyType.PLAIN ∨ body_type = none)
    (h : (cleanup_message_body rtf_to_text html_get_text x body_type size_threshold).length ≤
      size_threshold) :
    cleanup_message_body rtf_to_text html_get_text
        (.ofStr (cleanup_message_body rtf_to_text html_get_text x body_type size_threshold))
        body_type size_threshold =
      cleanup_message_body rtf_to_text html_get_text x body_type size_threshold := by
  have hnot : ¬ (size_threshold <
      (cleanup_message_body rtf_to_text html_get_text x body_type size_threshold).length) :=
    not_lt.mpr h
  conv_lhs => rw [cleanup_message_body]
  rcases hbt with hbt | hbt <;> subst hbt <;>
    simp only [decode, reduceCtorEq, Option.some.injEq, if_neg, ite_false, if_neg hnot] <;>
    exact pyStrip_cleanup_message_body _ _ _ _ _

/-- C9 witness: the amended idempotence theorem applied to the concrete
plain body `"hi"` with threshold 10. -/
theorem C9_idempotent_below_threshold_witness :
    ((some BodyType.PLAIN = some BodyType.PLAIN ∨ (some BodyType.PLAIN : Option BodyType) = none) ∧
      (cleanup_message_body id id (.ofStr ['h', 'i']) (some BodyType.PLAIN) 10).length ≤ 10) ∧
    cleanup_message_body id id
        (.ofStr (cleanup_message_body id id (.ofStr ['h', 'i']) (some BodyType.PLAIN) 10))
        (some BodyType.PLAIN) 10 =
      cleanup_message_body id id (.ofStr ['h', 'i']) (some BodyType.PLAIN) 10 :=
  ⟨⟨Or.inl rfl, by decide⟩,
    C9_idempotent_below_threshold id id (.ofStr ['h', 'i']) (some BodyType.PLAIN) 10
      (Or.inl rfl) (by decide)⟩

/-! ## Claim C5 — body extraction precedence -/

/-- An mbox message whose only part is an HTML part: there is no plain text
body, no RTF body, and a nonempty HTML body. -/
def htmlOnlyMboxMessage : MboxMessage :=
  { parts := [{ content_type := "text/html",
                as_string := ['<', 'p', '>', 'h', 'i', '<', '/', 'p', '>'] }] }

/-- C5 counterexample: on an mbox message with only an HTML part,
`MboxArchive.get_message_body` returns the empty string tagged `PLAIN` —
neither the HTML body tagged `html` nor an empty body with no body type
that the claimed precedence requires of every adapter. -/
theorem C5_precedence_counterexample :
    MboxArchive.get_message_body htmlOnlyMboxMessage = ([], some BodyType.PLAIN) ∧
    htmlOnlyMboxMessage.parts.all (fun p => p.content_type = "text/html") = true ∧
    htmlOnlyMboxMessage.parts ≠ [] := by decide

/-- C5 as amended: the plain → RTF → HTML → empty/no-type precedence holds
for `PffArchive.get_message_body`; `MboxArchive.get_message_body`, however,
always tags its result `PLAIN`, returning the serialization of the first
`text/plain` or `message/rfc822` part (the empty string, still tagged
`PLAIN`, when there is none) and never an RTF or HTML tag. -/
theorem C5_body_precedence_amended :
    (∀ m : PffMessage, bodyPrecedenceSpec m.plain_text_body m.rtf_body m.html_body
      (PffArchive.get_message_body m)) ∧
    (∀ m : MboxMessage, MboxArchive.get_message_body m =
      (MboxArchive.format_message m, some BodyType.PLAIN)) := by
  constructor
  · intro m
    unfold bodyPrecedenceSpec PffArchive.get_message_body
    split_ifs <;> rfl
  · intro m
    rfl

/-! ## Claim C10 — attachment metadata filtering and MIME fallback -/

/-- C10: `PffArchive.get_attachment_metadata` returns one metadata record,
in order, for exactly the attachments with a truthy (non-absent, non-empty)
name — the rest are silently omitted — and each record's MIME type is the
record-set lookup result when that succeeds with a truthy value, else the
filename-extension guess, and `None` (without raising) when the lookup
raised or both came back falsy, as captured by `resolvedMimeType`. -/
theorem C10_attachment_metadata (guess_mime_type : PyStr → Option PyStr)
    (attachments : List PffAttachment) :
    PffArchive.get_attachment_metadata guess_mime_type attachments =
      (attachments.filter (fun a => pyTruthy a.name)).map (fun a =>
        { name := a.name.getD [], mime_type := PffArchive.resolvedMimeType guess_mime_type a,
          size := some a.size }) := by
  induction attachments with
  | nil => rfl
  | cons a rest ih =>
    by_cases hn : pyTruthy a.name
    · simp [PffArchive.get_attachment_metadata, PffArchive.resolvedMimeType, hn, ih,
        List.filter_cons]
    · simp [PffArchive.get_attachment_metadata, hn, ih, List.filter_cons]

/-! ## Claim C2 — scan-stage error capture -/

/-- A scan input whose size/digest step raises (e.g. `os.stat` fails). -/
def statFailFile : ScanFileSpec :=
  { path := "bad.pst", name := "bad.pst", fs_result := .error "stat failed",
    msg_count_result := .error "not reached" }

/-- A scan input whose size/digest step succeeds but whose message-count
step raises (e.g. the archive is corrupt). -/
def msgCountFailFile : ScanFileSpec :=
  { path := "corrupt.pst", name := "corrupt.pst", fs_result := .ok (10, "m", "s"),
    msg_count_result := .error "boom" }

/-- C2 counterexample: a file whose size/digest computation raises is *not*
inserted as a `FileReport` row — `get_file_info` reports the exception at
the job level and `scan_files` only logs it — contradicting the claim that
any per-file exception still yields a `FileReport` row with the error
recorded. -/
theorem C2_scan_error_counterexample :
    (get_file_info statFailFile).2 = some "stat failed" ∧
    (scan_files [statFailFile] none).1 = [] := by decide

/-- C2 as amended: only exceptions from the message-count step are captured
in the `FileReport`'s `error` field with the row still inserted;
exceptions from the size/digest step are captured (not propagated) but the
file is then skipped entirely — no `FileReport` row is inserted.  In both
cases the file is excluded from subsequent stages, which keep exactly the
rows with a null `error`. -/
theorem C2_scan_error_capture_amended :
    (∀ (f : ScanFileSpec) (size : Nat) (md5 sha256 e : String),
      f.fs_result = .ok (size, md5, sha256) → f.msg_count_result = .error e →
      get_file_info f =
        ({ path := f.path, name := f.name, size := some size, md5 := some md5,
           sha256 := some sha256, msg_count := none, error := some e }, none)) ∧
    (∀ (f : ScanFileSpec) (fs : List ScanFileSpec) (v : FileReport),
      get_file_info f = (v, none) →
      (scan_files (f :: fs) none).1 = v :: (scan_files fs none).1) ∧
    (∀ (f : ScanFileSpec) (fs : List ScanFileSpec) (e : String),
      f.fs_result = .error e →
      (scan_files (f :: fs) none).1 = (scan_files fs none).1) ∧
    (∀ (table : List FileReport) (p : String),
      p ∈ goodFilePaths table ↔ ∃ r ∈ table, r.error = none ∧ r.path = p) := by
  refine ⟨?_, ?_, ?_, ?_⟩
  · intro f size md5 sha256 e hfs hmc
    simp [get_file_info, hfs, hmc]
  · intro f fs v h
    simp [scan_files, List.filterMap_cons, h]
  · intro f fs e h
    simp [scan_files, List.filterMap_cons, get_file_info, h]
  · intro table p
    simp only [goodFilePaths, List.mem_map, List.mem_filter, decide_eq_true_eq]
    constructor
    · rintro ⟨r, ⟨hr, he⟩, hp⟩
      exact ⟨r, hr, he, hp⟩
    · rintro ⟨r, hr, he, hp⟩
      exact ⟨r, ⟨hr, he⟩, hp⟩

/-- C2 witness: the amended theorem's first conjunct applied to the
concrete message-count-failure file. -/
theorem C2_scan_error_capture_witness :
    (msgCountFailFile.fs_result = .ok (10, "m", "s") ∧
      msgCountFailFile.msg_count_result = .error "boom") ∧
    get_file_info msgCountFailFile =
      ({ path := msgCountFailFile.path, name := msgCountFailFile.name, size := some 10,
         md5 := some "m", sha256 := some "s", msg_count := none, error := some "boom" }, none) :=
  ⟨⟨rfl, rfl⟩, C2_scan_error_capture_amended.1 msgCountFailFile 10 "m" "s" "boom" rfl rfl⟩

/-! ## Claim C4 — linkage invariant -/

/-- If a path comes from the good-files query and the `.one()` lookup on it
succeeds, the row found has a null `error`: the lookup requires a unique
row with that path, and the good-files query guarantees an error-free row
with that path exists — so the unique match is that row. -/
lemma linkFileReport_error_none (table : List FileReport) (p : String) (fr : FileReport)
    (hp : p ∈ goodFilePaths table) (hlink : linkFileReport table p = some fr) :
    fr.error = none := by
  obtain ⟨g, hg, hgp⟩ : ∃ g ∈ table.filter (fun r => r.error = none), g.path = p := by
    simpa [goodFilePaths] using hp
  rw [List.mem_filter, decide_eq_true_eq] at hg
  have hgmem : g ∈ table.filter (fun r => r.path = p) := by
    rw [List.mem_filter, decide_eq_true_eq]
    exact ⟨hg.1, hgp⟩
  unfold linkFileReport at hlink
  split at hlink
  case _ r heq =>
    rw [heq, List.mem_singleton] at hgmem
    cases hlink
    rw [← hgmem]
    exact hg.2
  case _ => exact absurd hlink (by simp)

/-- C4: in the entities pipeline, every `Message` row with a non-null
`file_report` reference points at a `FileReport` whose `error` is null —
only files that scanned cleanly are fed into extraction, and the `.one()`
path lookup can only resolve to the unique row for such a path. -/
theorem C4_linkage_invariant (files : List ScanFileSpec) (messages_of : String → List Nat)
    (row : MessageRow) (fr : FileReport)
    (hrow : row ∈ entitiesLinkage files messages_of)
    (hlink : row.file_report = some fr) :
    fr.error = none := by
  unfold entitiesLinkage at hrow
  rw [List.mem_flatMap] at hrow
  obtain ⟨p, hp, hmem⟩ := hrow
  rw [List.mem_map] at hmem
  obtain ⟨i, _, hrow_eq⟩ := hmem
  subst hrow_eq
  exact linkFileReport_error_none _ p fr hp hlink

/-- A scan input that scans cleanly. -/
def okScanFile : ScanFileSpec :=
  { path := "good.pst", name := "good.pst", fs_result := .ok (5, "m", "s"),
    msg_count_result := .ok 1 }

/-- The `FileReport` row the clean scan input produces. -/
def goodReport : FileReport :=
  { path := "good.pst", name := "good.pst", size := some 5, md5 := some "m",
    sha256 := some "s", msg_count := some 1 }

/-- The linked `Message` row the pipeline produces for that file. -/
def goodRow : MessageRow := { pff_identifier := some 7, file_report := some goodReport }

/-- The message identifiers each archive yields in the witness scenario. -/
def witnessMessagesOf : String → List Nat := fun _ => [7]

/-- C4 witness: the linkage invariant applied to a concrete one-file,
one-message pipeline run. -/
theorem C4_linkage_invariant_witness :
    (goodRow ∈ entitiesLinkage [okScanFile] witnessMessagesOf ∧
      goodRow.file_report = some goodReport) ∧
    goodReport.error = none :=
  ⟨⟨by decide, rfl⟩,
    C4_linkage_invariant [okScanFile] witnessMessagesOf goodRow goodReport (by decide) rfl⟩

/-! ## Claim C6 — job status codes -/

/-- C6 counterexample: a model-load failure before any processing makes the
`entities` subcommand return 1 — exactly the value the cancellation path
returns — not some nonzero value other than 1. -/
theorem C6_status_counterexample :
    entitiesCommandStatus 0 false 0 = 1 ∧
    (extract_entities 1 [] (some 0)).status = 1 := by decide

/-- C6 as amended: the `entities` job returns 0 on success and 1 for
cancelled-with-partial-results, but an unrecoverable setup failure (model
load failure before any processing) also returns 1, the same value as
cancellation, not a distinct one; every reachable status is 0 or 1 —
`extract_entities` and `scan_files` themselves only ever return 0 or 1. -/
theorem C6_status_codes_amended :
    (entitiesCommandStatus 0 true 0 = 0) ∧
    (∀ e : Nat, entitiesCommandStatus 0 true e = e) ∧
    (∀ e : Nat, entitiesCommandStatus 0 false e = 1) ∧
    (∀ (K : Nat) (rs : List WorkerResult) (i : Option Nat),
      (extract_entities K rs i).status = 0 ∨ (extract_entities K rs i).status = 1) ∧
    (∀ (fs : List ScanFileSpec) (i : Option Nat),
      (scan_files fs i).2 = 0 ∨ (scan_files fs i).2 = 1) ∧
    (∀ (s e : Nat) (m : Bool), (s = 0 ∨ s = 1) → (e = 0 ∨ e = 1) →
      entitiesCommandStatus s m e = 0 ∨ entitiesCommandStatus s m e = 1) := by
  refine ⟨rfl, fun e => rfl, fun e => rfl, ?_, ?_, ?_⟩
  · intro K rs i
    cases i <;> simp [extract_entities]
  · intro fs i
    cases i <;> simp [scan_files]
  · rintro s e m (rfl | rfl) (rfl | rfl) <;> cases m <;>
      simp [entitiesCommandStatus]

/-- C6 witness: the amended theorem's closure property applied to a
successful scan followed by a cancelled extraction. -/
theorem C6_status_codes_witness :
    (((0 : Nat) = 0 ∨ (0 : Nat) = 1) ∧ ((1 : Nat) = 0 ∨ (1 : Nat) = 1)) ∧
    (entitiesCommandStatus 0 true 1 = 0 ∨ entitiesCommandStatus 0 true 1 = 1) :=
  ⟨⟨Or.inl rfl, Or.inr rfl⟩,
    C6_status_codes_amended.2.2.2.2.2 0 1 true (Or.inl rfl) (Or.inr rfl)⟩

/-! ## Claim C1 — cancellation contract of the extraction stage -/

/-- Number of `Entity` rows in a batch of storage rows. -/
def entityCount (recs : List DbRec) : Nat := recs.countP (fun r => r.isEntity)

/-- The `Message`/`Attachment` rows added for one worker result contain no
`Entity` row. -/
lemma entityCount_msg_att (i a : Nat) :
    entityCount (DbRec.message i :: (List.range a).map (DbRec.attachment i)) = 0 := by
  rw [entityCount, List.countP_eq_zero]
  rintro r hr
  rcases List.mem_cons.mp hr with rfl | hr
  · simp [DbRec.isEntity]
  · obtain ⟨j, _, rfl⟩ := List.mem_map.mp hr
    simp [DbRec.isEntity]

/-- One loop step preserves "`session.new` holds no `Entity` rows": entity
rows enter the session only inside a flush, which commits them at once. -/
lemma processWorkerResult_pending_entity_free (K : Nat) (st : ExtractState) (r : WorkerResult)
    (h : entityCount st.session.pending = 0) :
    entityCount (processWorkerResult K st r).session.pending = 0 := by
  unfold processWorkerResult
  split
  · exact h
  · dsimp only
    split
    · simp [SessionState.commit, entityCount]
    · simp only [SessionState.add, entityCount, List.countP_append]
      rw [entityCount] at h
      rw [h]
      simpa [entityCount] using entityCount_msg_att r.message_id r.attachments

/-- Along the whole result-consumption loop, `session.new` never holds an
`Entity` row. -/
lemma foldl_pending_entity_free (K : Nat) (results : List WorkerResult) (st : ExtractState)
    (h : entityCount st.session.pending = 0) :
    entityCount (results.foldl (processWorkerResult K) st).session.pending = 0 := by
  induction results generalizing st with
  | nil => exact h
  | cons r rest ih =>
    rw [List.foldl_cons]
    exact ih _ (processWorkerResult_pending_entity_free K st r h)

/-- C1 as amended: if a `KeyboardInterrupt` arrives after `k` worker
results were consumed, the pool is terminated and joined, the status is the
distinct cancelled value 1, the buffered-but-uncommitted entities are
discarded (no `Entity` row beyond the batch-committed ones is ever
persisted), and all batch-committed records remain — but the store ends up
holding the batch-committed rows *plus* the `Message`/`Attachment` rows
still sitting in `session.new` at interrupt time, which the enclosing
`db_session` context commits on exit; so more than M messages' worth of
records can remain queryable. -/
theorem C1_cancellation_amended (K : Nat) (results : List WorkerResult) (k : Nat)
    (_hk : k ≤ results.length) :
    (run_entities_persistence K results (some k)).status = 1 ∧
    (run_entities_persistence K results (some k)).pool_terminated = true ∧
    (run_entities_persistence K results (some k)).pool_joined = true ∧
    (run_entities_persistence K results (some k)).final.session.committed =
      ((results.take k).foldl (processWorkerResult K) initExtractState).session.committed ++
        ((results.take k).foldl (processWorkerResult K) initExtractState).session.pending ∧
    entityCount
      (((results.take k).foldl (processWorkerResult K) initExtractState).session.pending) = 0 := by
  refine ⟨rfl, rfl, rfl, ?_, ?_⟩
  · by_cases hp :
      ((results.take k).foldl (processWorkerResult K) initExtractState).session.pending = [] <;>
      simp [run_entities_persistence, extract_entities, SessionState.commit, hp]
  · exact foldl_pending_entity_free K _ _ (by simp [initExtractState, entityCount])

/-- C1 witness: the amended cancellation theorem applied to a one-result
run with batch size 2, interrupted after the single result. -/
theorem C1_cancellation_witness :
    (1 ≤ ([oneEntityResult 1] : List WorkerResult).length) ∧
    ((run_entities_persistence 2 [oneEntityResult 1] (some 1)).status = 1 ∧
      (run_entities_persistence 2 [oneEntityResult 1] (some 1)).pool_terminated = true ∧
      (run_entities_persistence 2 [oneEntityResult 1] (some 1)).pool_joined = true ∧
      (run_entities_persistence 2 [oneEntityResult 1] (some 1)).final.session.committed =
        (([oneEntityResult 1].take 1).foldl (processWorkerResult 2) initExtractState).session.committed ++
          (([oneEntityResult 1].take 1).foldl (processWorkerResult 2) initExtractState).session.pending ∧
      entityCount
        ((([oneEntityResult 1].take 1).foldl (processWorkerResult 2) initExtractState).session.pending) = 0) :=
  ⟨by decide, C1_cancellation_amended 2 [oneEntityResult 1] 1 (by decide)⟩

/-- C1 counterexample: with batch size 2 and one worker result carrying one
entity, an interrupt after that result leaves M = 0 messages committed
(the buffer never reached the batch size), yet after the enclosing
`db_session` exit commit exactly one `Message` row is queryable — more
than "exactly M messages' worth of records (no more, no fewer)". -/
theorem C1_cancellation_counterexample :
    (run_entities_persistence 2 [oneEntityResult 1] (some 1)).status = 1 ∧
    (([oneEntityResult 1].take 1).foldl (processWorkerResult 2)
        initExtractState).session.committed = [] ∧
    (run_entities_persistence 2 [oneEntityResult 1] (some 1)).final.session.committed =
      [DbRec.message 1] := by decide

/-! ## Claim C3 — batch-size boundary of entity persistence -/

/-- `entityCount` distributes over append. -/
lemma entityCount_append (a b : List DbRec) :
    entityCount (a ++ b) = entityCount a + entityCount b := List.countP_append _ _ _

/-- Division/modulus step when a counter at a batch boundary advances. -/
lemma div_mod_succ_flush {K m : Nat} (hK : 0 < K) (h : m % K + 1 = K) :
    (m + 1) / K = m / K + 1 ∧ (m + 1) % K = 0 := by
  have hdm := Nat.div_add_mod m K
  have hm1 : m + 1 = K * (m / K + 1) := by
    conv_lhs => rw [← hdm]
    rw [Nat.add_assoc, h, Nat.mul_succ]
  constructor
  · rw [hm1, Nat.mul_div_cancel_left _ hK]
  · rw [hm1]
    exact Nat.mul_mod_right K _

/-- Division/modulus step when a counter strictly inside a batch advances. -/
lemma div_mod_succ_noflush {K m : Nat} (hK : 0 < K) (h : m % K + 1 < K) :
    (m + 1) / K = m / K ∧ (m + 1) % K = m % K + 1 := by
  have hdm := Nat.div_add_mod m K
  have hm1 : m + 1 = (m % K + 1) + K * (m / K) := by
    conv_lhs => rw [← hdm]
    ring
  constructor
  · rw [hm1, Nat.add_mul_div_left _ _ hK, Nat.div_eq_of_lt h, Nat.zero_add]
  · rw [hm1, Nat.add_mul_mod_self_left, Nat.mod_eq_of_lt h]

/-- `entityCount` of an empty batch. -/
lemma entityCount_nil : entityCount [] = 0 := rfl

/-- `entityCount` of a cons. -/
lemma entityCount_cons (r : DbRec) (l : List DbRec) :
    entityCount (r :: l) = entityCount l + (if r.isEntity then 1 else 0) :=
  List.countP_cons _ _ _

/-- Loop invariant of the result-consumption loop on the one-entity-per-
message scenario: after `m` messages the commit log holds `m / K` commits
of exactly `K` entities each, `K * (m / K)` entity rows are durable, the
entity buffer holds the remaining `m % K` entities, and `session.new`
holds the `m % K` message rows added since the last flush (no entities). -/
lemma oneEntity_loop_invariant (K : Nat) (hK : 0 < K) (m : Nat) :
    (((List.range m).map oneEntityResult).foldl (processWorkerResult K)
        initExtractState).session.commitLog.map entityCount = List.replicate (m / K) K ∧
    entityCount (((List.range m).map oneEntityResult).foldl (processWorkerResult K)
        initExtractState).session.committed = K * (m / K) ∧
    entityCount (((List.range m).map oneEntityResult).foldl (processWorkerResult K)
        initExtractState).session.pending = 0 ∧
    (((List.range m).map oneEntityResult).foldl (processWorkerResult K)
        initExtractState).session.pending.length = m % K ∧
    (((List.range m).map oneEntityResult).foldl (processWorkerResult K)
        initExtractState).new_entities.length = m % K ∧
    entityCount (((List.range m).map oneEntityResult).foldl (processWorkerResult K)
        initExtractState).new_entities = m % K := by
  induction m with
  | zero =>
    refine ⟨?_, ?_, ?_, ?_, ?_, ?_⟩ <;> simp [initExtractState, entityCount]
  | succ m ih =>
    obtain ⟨ih1, ih2, ih3, ih4, ih5, ih6⟩ := ih
    have hmod : m % K < K := Nat.mod_lt _ hK
    rw [List.range_succ, List.map_append, List.foldl_append]
    simp only [List.map_cons, List.map_nil, List.foldl_cons, List.foldl_nil]
    set st := ((List.range m).map oneEntityResult).foldl (processWorkerResult K)
      initExtractState with hst
    unfold processWorkerResult
    simp only [oneEntityResult, Option.isSome_none, Bool.false_eq_true, if_false,
      List.range_succ, List.range_zero, List.map_nil, List.map_cons, List.nil_append,
      List.map_append]
    by_cases hcond : K ≤ (st.new_entities ++ [DbRec.entity m 0]).length
    · have hKeq : m % K + 1 = K := by
        have h1 : K ≤ m % K + 1 := by
          simpa [ih5] using hcond
        omega
      obtain ⟨hdiv, hmod0⟩ := div_mod_succ_flush hK hKeq
      simp only [if_pos hcond]
      refine ⟨?_, ?_, ?_, ?_, ?_, ?_⟩ <;>
        simp [SessionState.add, SessionState.commit, List.map_append, ih1, ih2, ih3, ih4,
          ih5, ih6, entityCount_append, entityCount_cons, entityCount_nil, DbRec.isEntity,
          hdiv, hmod0, hKeq, List.replicate_succ', Nat.mul_succ]
    · have hlt : m % K + 1 < K := by
        have h1 : ¬ K ≤ m % K + 1 := by
          simpa [ih5] using hcond
        omega
      obtain ⟨hdiv, hmods⟩ := div_mod_succ_noflush hK hlt
      simp only [if_neg hcond]
      refine ⟨?_, ?_, ?_, ?_, ?_, ?_⟩ <;>
        simp [SessionState.add, List.map_append, ih1, ih2, ih3, ih4, ih5, ih6,
          entityCount_append, entityCount_cons, entityCount_nil, DbRec.isEntity,
          hdiv, hmods]

/-- C3: with commit batch size `K`, the pending entity buffer is flushed
with a commit once it reaches `K`; processing `3K+1` one-entity messages
with no failures produces exactly 4 commits — 3 full batches of `K`
entities and 1 final partial commit of the remaining entity (issued by the
enclosing `db_session` on exit) — and a total of `3K+1` persisted
entities. -/
theorem C3_batch_boundary (K : Nat) (hK : 1 ≤ K) :
    (run_entities_persistence K ((List.range (3 * K + 1)).map oneEntityResult) none).status = 0 ∧
    (run_entities_persistence K ((List.range (3 * K + 1)).map oneEntityResult)
        none).final.session.commitLog.map entityCount = [K, K, K, 1] ∧
    entityCount (run_entities_persistence K ((List.range (3 * K + 1)).map oneEntityResult)
        none).final.session.committed = 3 * K + 1 := by
  rcases eq_or_lt_of_le hK with h1 | h2
  · subst h1
    decide
  · have hK0 : 0 < K := by omega
    have hdiv : (3 * K + 1) / K = 3 := by
      rw [show 3 * K + 1 = 1 + K * 3 by ring, Nat.add_mul_div_left _ _ hK0,
        Nat.div_eq_of_lt h2, Nat.zero_add]
    have hmod : (3 * K + 1) % K = 1 := by
      rw [show 3 * K + 1 = 1 + K * 3 by ring, Nat.add_mul_mod_self_left, Nat.mod_eq_of_lt h2]
    obtain ⟨i1, i2, i3, i4, i5, i6⟩ := oneEntity_loop_invariant K hK0 (3 * K + 1)
    rw [hdiv] at i1 i2
    rw [hmod] at i4 i5 i6
    set st := ((List.range (3 * K + 1)).map oneEntityResult).foldl (processWorkerResult K)
      initExtractState with hst
    unfold run_entities_persistence extract_entities
    have hpend : ¬ ((st.session.add st.new_entities).pending = []) := by
      have hlen : (st.session.add st.new_entities).pending.length = 2 := by
        simp [SessionState.add, i4, i5]
      intro hc
      rw [hc] at hlen
      simp at hlen
    refine ⟨rfl, ?_, ?_⟩
    · simp only [hst, if_neg hpend]
      simp [SessionState.add, SessionState.commit, List.map_append, i1, entityCount_append,
        i3, i6, List.replicate]
    · simp only [hst, if_neg hpend]
      simp [SessionState.add, SessionState.commit, entityCount_append, i2, i3, i6]
      ring

/-- C3 witness: the batch-boundary theorem at the concrete batch size 2
(seven worker results, commits of sizes 2, 2, 2, 1). -/
theorem C3_batch_boundary_witness :
    (1 ≤ 2) ∧
    ((run_entities_persistence 2 ((List.range (3 * 2 + 1)).map oneEntityResult) none).status = 0 ∧
      (run_entities_persistence 2 ((List.range (3 * 2 + 1)).map oneEntityResult)
          none).final.session.commitLog.map entityCount = [2, 2, 2, 1] ∧
      entityCount (run_entities_persistence 2 ((List.range (3 * 2 + 1)).map oneEntityResult)
          none).final.session.committed = 3 * 2 + 1) :=
  ⟨by decide, C3_batch_boundary 2 (by decide)⟩

/-! ## Claim C7 — progress cadence of the message stream generator -/

/-- The generator's message counter advances by one per message, yielded
or skipped (the increment sits in a `finally`). -/
lemma msgLoop_counter (step : Nat) (fp : String) (wc wh : Bool) (msgs : List GenMessage) :
    ∀ n, (msgLoop step fp wc wh n msgs).2.2 = n + msgs.length := by
  induction msgs with
  | nil => intro n; simp [msgLoop]
  | cons m rest ih =>
    intro n
    simp only [msgLoop, ih, List.length_cons]
    omega

/-- Progress calls of the inner message loop: one call with `step` at
every counter multiple of `step` crossed. -/
lemma msgLoop_progress (step : Nat) (_hs : 0 < step) (fp : String) (wc wh : Bool)
    (msgs : List GenMessage) :
    ∀ n, (msgLoop step fp wc wh n msgs).2.1 =
      List.replicate ((n + msgs.length) / step - n / step) step := by
  induction msgs with
  | nil => intro n; simp [msgLoop]
  | cons m rest ih =>
    intro n
    simp only [msgLoop, ih (n + 1), List.length_cons]
    by_cases hd : (n + 1) % step = 0
    · have hdvd : step ∣ n + 1 := Nat.dvd_of_mod_eq_zero hd
      have hsd : (n + 1) / step = n / step + 1 := Nat.succ_div_of_dvd hdvd
      have hle : n / step + 1 ≤ (n + 1 + rest.length) / step := by
        rw [← hsd]
        exact Nat.div_le_div_right (by omega)
      rw [if_pos hd, hsd]
      have harith : (n + (rest.length + 1)) / step - n / step =
          ((n + 1 + rest.length) / step - (n / step + 1)) + 1 := by
        have : n + (rest.length + 1) = n + 1 + rest.length := by omega
        rw [this]
        omega
      rw [harith, List.replicate_succ]
      rfl
    · have hdvd : ¬ step ∣ n + 1 := fun hc => hd (Nat.mod_eq_zero_of_dvd hc)
      have hsd : (n + 1) / step = n / step := Nat.succ_div_of_not_dvd hdvd
      rw [if_neg hd, hsd]
      have : n + (rest.length + 1) = n + 1 + rest.length := by omega
      rw [this]
      rfl

/-- `totalIterated` on no files. -/
lemma totalIterated_nil : totalIterated [] = 0 := rfl

/-- `totalIterated` step for a file that opens. -/
lemma totalIterated_cons_ok {f : GenFile} {msgs : List GenMessage}
    (h : f.open_result = .ok msgs) (rest : List GenFile) :
    totalIterated (f :: rest) = msgs.length + totalIterated rest := by
  simp [totalIterated, h]

/-- `totalIterated` step for a file that fails to open. -/
lemma totalIterated_cons_error {f : GenFile} {e : Unit}
    (h : f.open_result = .error e) (rest : List GenFile) :
    totalIterated (f :: rest) = totalIterated rest := by
  simp [totalIterated, h]

/-- The counter after the whole file loop equals the number of iterated
messages. -/
lemma filesLoop_counter (step : Nat) (wc wh : Bool) (files : List GenFile) :
    ∀ n, (filesLoop step wc wh n files).2.2 = n + totalIterated files := by
  induction files with
  | nil => intro n; simp [filesLoop, totalIterated]
  | cons f rest ih =>
    intro n
    cases hopen : f.open_result with
    | error e => simp [filesLoop, hopen, ih, totalIterated_cons_error hopen]
    | ok msgs =>
      simp only [filesLoop, hopen, ih, msgLoop_counter, totalIterated_cons_ok hopen]
      omega

/-- Progress calls of the whole file loop. -/
lemma filesLoop_progress (step : Nat) (hs : 0 < step) (wc wh : Bool) (files : List GenFile) :
    ∀ n, (filesLoop step wc wh n files).2.1 =
      List.replicate ((n + totalIterated files) / step - n / step) step := by
  induction files with
  | nil => intro n; simp [filesLoop, totalIterated]
  | cons f rest ih =>
    intro n
    cases hopen : f.open_result with
    | error e =>
      simp [filesLoop, hopen, ih, totalIterated_cons_error hopen]
    | ok msgs =>
      simp only [filesLoop, hopen, ih, msgLoop_counter, msgLoop_progress step hs,
        totalIterated_cons_ok hopen]
      have h1 : n / step ≤ (n + msgs.length) / step := Nat.div_le_div_right (by omega)
      have h2 : (n + msgs.length) / step ≤ (n + msgs.length + totalIterated rest) / step :=
        Nat.div_le_div_right (by omega)
      rw [← Nat.add_assoc, ← List.replicate_add]
      congr 1
      omega

/-- A message whose adapter calls all succeed is yielded. -/
lemma processGenMessage_isSome (fp : String) (wc wh : Bool) (m : GenMessage)
    (h : (m.attachments_result.isOk && (!wc || m.body_result.isOk)) = true) :
    (processGenMessage fp wc wh m).isSome = true := by
  unfold processGenMessage
  rw [Bool.and_eq_true] at h
  obtain ⟨ha, hb⟩ := h
  cases hatt : m.attachments_result with
  | error e =>
    rw [hatt] at ha
    simp [Except.isOk, Except.toBool] at ha
  | ok atts =>
    cases wc with
    | false => simp
    | true =>
      simp only [Bool.not_true, Bool.false_or] at hb
      cases hbody : m.body_result with
      | error e =>
        rw [hbody] at hb
        simp [Except.isOk, Except.toBool] at hb
      | ok b =>
        simp

/-- With no per-message failure, every message of a file is yielded. -/
lemma msgLoop_yields (step : Nat) (fp : String) (wc wh : Bool) (msgs : List GenMessage)
    (h : msgs.all (fun m => m.attachments_result.isOk && (!wc || m.body_result.isOk)) = true) :
    ∀ n, (msgLoop step fp wc wh n msgs).1.length = msgs.length := by
  induction msgs with
  | nil => intro n; simp [msgLoop]
  | cons m rest ih =>
    intro n
    rw [List.all_cons, Bool.and_eq_true] at h
    have hsome := processGenMessage_isSome fp wc wh m h.1
    simp only [msgLoop, List.length_append, ih h.2, List.length_cons]
    cases hp : processGenMessage fp wc wh m with
    | none => rw [hp] at hsome; simp at hsome
    | some w => simp [hp]; omega

/-- With no per-message failure anywhere, the yield count equals the
iterated-message count. -/
lemma filesLoop_yields (step : Nat) (wc wh : Bool) (files : List GenFile)
    (h : genNoFailure wc files = true) :
    ∀ n, (filesLoop step wc wh n files).1.length = totalIterated files := by
  induction files with
  | nil => intro n; simp [filesLoop, totalIterated]
  | cons f rest ih =>
    intro n
    rw [genNoFailure, List.all_cons, Bool.and_eq_true] at h
    have hrest : genNoFailure wc rest = true := h.2
    cases hopen : f.open_result with
    | error e => simp [filesLoop, hopen, ih hrest, totalIterated_cons_error hopen]
    | ok msgs =>
      have hmsgs : msgs.all
          (fun m => m.attachments_result.isOk && (!wc || m.body_result.isOk)) = true := by
        have h1 := h.1
        rw [hopen] at h1
        exact h1
      simp only [filesLoop, hopen, List.length_append, ih hrest,
        msgLoop_yields step f.path wc wh msgs hmsgs, totalIterated_cons_ok hopen]

/-- C7 as amended: the progress callback is invoked with `N` after every
`N` *iterated* messages — messages skipped by the per-message error handler
are counted too, because the counter increment and the callback sit in a
`finally` block — plus exactly once more at the end with the remainder
(possibly 0); hence the increments sum to the number of iterated messages,
which equals the number of *yielded* items exactly when no per-message
failure occurred. -/
theorem C7_progress_cadence_amended (step : Nat) (hs : 0 < step) (files : List GenFile) (wc wh : Bool) :
    (get_messages step files wc wh).2 =
      List.replicate (totalIterated files / step) step ++ [totalIterated files % step] ∧
    (get_messages step files wc wh).2.sum = totalIterated files ∧
    (genNoFailure wc files = true →
      (get_messages step files wc wh).1.length = totalIterated files) := by
  refine ⟨?_, ?_, ?_⟩
  · unfold get_messages
    simp [filesLoop_progress step hs wc wh files 0, filesLoop_counter]
  · unfold get_messages
    simp only [filesLoop_progress step hs wc wh files 0, filesLoop_counter,
      List.sum_append, List.sum_replicate, List.sum_cons, List.sum_nil, smul_eq_mul,
      Nat.zero_add, Nat.zero_div, Nat.sub_zero]
    rw [Nat.mul_comm]
    exact Nat.div_add_mod _ _
  · intro hnf
    unfold get_messages
    simp [filesLoop_yields step wc wh files hnf 0]

/-- A message whose attachment-metadata call raises, so the generator skips
it — but still counts it. -/
def attachFailMessage : GenMessage :=
  { identifier := none, attachments_result := .error (), date_result := .ok 0,
    body_result := .ok ([], none) }

/-- A file containing only that failing message. -/
def attachFailFile : GenFile := { path := "f.pst", open_result := .ok [attachFailMessage] }

/-- A message whose adapter calls all succeed. -/
def okGenMessage : GenMessage :=
  { identifier := some 1, attachments_result := .ok [], date_result := .ok 0,
    body_result := .ok ([], some BodyType.PLAIN) }

/-- A file with two good messages. -/
def okGenFile : GenFile := { path := "ok.pst", open_result := .ok [okGenMessage, okGenMessage] }

/-- C7 counterexample: a run over one file whose single message fails
during work-item construction yields 0 items, yet the progress increments
sum to 1 — the callback counts iterated messages, not yielded items, so
"the sum of all reported increments equals the total number of yielded
items" fails. -/
theorem C7_progress_counterexample :
    (get_messages RATOM_MSG_PROGRESS_STEP [attachFailFile] true false).1.length = 0 ∧
    (get_messages RATOM_MSG_PROGRESS_STEP [attachFailFile] true false).2.sum = 1 ∧
    ¬ ((get_messages RATOM_MSG_PROGRESS_STEP [attachFailFile] true false).2.sum =
        (get_messages RATOM_MSG_PROGRESS_STEP [attachFailFile] true false).1.length) := by
  decide

/-- C7 witness: the amended cadence theorem at the default step 10, on one
file with two clean messages (one final call with remainder 2). -/
theorem C7_progress_cadence_witness :
    0 < RATOM_MSG_PROGRESS_STEP ∧
    ((get_messages RATOM_MSG_PROGRESS_STEP [okGenFile] true false).2 =
        List.replicate (totalIterated [okGenFile] / RATOM_MSG_PROGRESS_STEP)
          RATOM_MSG_PROGRESS_STEP ++ [totalIterated [okGenFile] % RATOM_MSG_PROGRESS_STEP] ∧
      (get_messages RATOM_MSG_PROGRESS_STEP [okGenFile] true false).2.sum =
        totalIterated [okGenFile] ∧
      (genNoFailure true [okGenFile] = true →
        (get_messages RATOM_MSG_PROGRESS_STEP [okGenFile] true false).1.length =
          totalIterated [okGenFile])) :=
  ⟨by decide, C7_progress_cadence_amended RATOM_MSG_PROGRESS_STEP (by decide) [okGenFile]
    true false⟩
